import Mathlib

/-!
Verification development for the AEI ratings repository.

The definitions below are shallow embeddings of the Python source files:
floating-point arithmetic is modelled by real arithmetic (the spec states
all numeric properties up to floating-point tolerance), Python dictionaries
by association lists or by functions into Option, and fallible operations
by Option-valued functions.
-/

/-! ## Elo rating transform (src/elo_updater_nba.py) -/

/-- Embedding of the inline Python conditional
`(1 if x > 0 else -1 if x < 0 else 0)` used twice inside
calculate_new_elo. -/
noncomputable def psign (x : ℝ) : ℝ :=
  if 0 < x then 1 else if x < 0 then -1 else 0

/-- Expected score for the away team:
`ex = 1 / (1 + 10 ** ((AElo - HElo) / 400))`. -/
noncomputable def eloEx (AElo HElo : ℝ) : ℝ :=
  1 / (1 + (10 : ℝ) ^ ((AElo - HElo) / 400))

/-- Actual score modifier:
`act = abs((ascore - hscore) + 1) ** 0.42 * sign(ascore - hscore)`. -/
noncomputable def eloAct (ascore hscore : ℤ) : ℝ :=
  |((ascore : ℝ) - (hscore : ℝ)) + 1| ^ (0.42 : ℝ) *
    psign ((ascore : ℝ) - (hscore : ℝ))

/-- Multiplicative factor
`abs(HElo - AElo) ** (sign(HElo - AElo) / 1000)` applied to the away
team's adjusted rating inside calculate_new_elo. -/
noncomputable def eloFactor (AElo HElo : ℝ) : ℝ :=
  |HElo - AElo| ^ (psign (HElo - AElo) / 1000)

/-- Embedding of calculate_new_elo from src/elo_updater_nba.py: returns the
pair (new away rating, new home rating). -/
noncomputable def calculate_new_elo (AElo HElo : ℝ) (ascore hscore : ℤ) :
    ℝ × ℝ :=
  let ex := eloEx AElo HElo
  let act := eloAct ascore hscore
  let AElo_new := (AElo + 4 * (act / (ex + 0.1))) * eloFactor AElo HElo
  (AElo_new, HElo - (AElo_new - AElo))

/-! ## String helpers shared by the scraper scripts

Python string primitives are embedded over lists of characters so that
every concrete evaluation reduces in the kernel. -/

/-- Embedding of Python str.lower (the names this pipeline compares are
ASCII after accent folding, for which Char.toLower agrees with Python). -/
def lowerStr (s : String) : String :=
  ⟨s.data.map Char.toLower⟩

/-- Folding table for strip_accents: unicodedata.normalize('NFD', ·)
followed by dropping combining marks sends each precomposed Latin letter
to its base letter.  The table covers the accented letters this pipeline
can produce (the mojibake repairs emit only e-acute). -/
def foldAccentChar (c : Char) : Char :=
  if c = 'á' ∨ c = 'à' ∨ c = 'â' ∨ c = 'ä' ∨ c = 'ã' then 'a'
  else if c = 'é' ∨ c = 'è' ∨ c = 'ê' ∨ c = 'ë' then 'e'
  else if c = 'í' ∨ c = 'ì' ∨ c = 'î' ∨ c = 'ï' then 'i'
  else if c = 'ó' ∨ c = 'ò' ∨ c = 'ô' ∨ c = 'ö' ∨ c = 'õ' then 'o'
  else if c = 'ú' ∨ c = 'ù' ∨ c = 'û' ∨ c = 'ü' then 'u'
  else if c = 'ñ' then 'n'
  else c

/-- Embedding of strip_accents (NFD-decompose and drop the Mn marks). -/
def strip_accents (s : String) : String :=
  ⟨s.data.map foldAccentChar⟩

/-- Whitespace test matching Python str.strip / str.split defaults on the
characters these scripts see. -/
def isWS (c : Char) : Bool :=
  c.isWhitespace

/-- Embedding of Python str.strip() on a character list. -/
def pyStrip (s : List Char) : List Char :=
  ((s.dropWhile isWS).reverse.dropWhile isWS).reverse

/-- Embedding of the Python substring test `needle in hay`. -/
def isSubList (needle : List Char) : List Char → Bool
  | [] => needle.isEmpty
  | c :: rest => needle.isPrefixOf (c :: rest) || isSubList needle rest

/-- String wrapper for the substring test. -/
def isSubstr (needle hay : String) : Bool :=
  isSubList needle.data hay.data

/-- Embedding of Python str.replace (all occurrences, left to right),
structurally recursive on a fuel argument so that concrete instances
reduce in the kernel; with fuel at least the length of the string and a
nonempty pattern the fuel is never exhausted. -/
def replaceAux (pat rep : List Char) : Nat → List Char → List Char
  | _, [] => []
  | 0, s => s
  | n + 1, c :: rest =>
    if !pat.isEmpty && pat.isPrefixOf (c :: rest) then
      rep ++ replaceAux pat rep n ((c :: rest).drop pat.length)
    else
      c :: replaceAux pat rep n rest

/-- String wrapper for replaceAux. -/
def pyReplace (s pat rep : String) : String :=
  ⟨replaceAux pat.data rep.data s.data.length s.data⟩

/-- Digit-run parser underlying the embedding of Python int(str). -/
def parseDigits : List Char → Nat → Option Nat
  | [], acc => some acc
  | c :: rest, acc =>
    if c.isDigit then
      parseDigits rest (acc * 10 + (c.toNat - '0'.toNat))
    else none

/-- Embedding of Python int(str): optional surrounding whitespace, an
optional sign, then a nonempty run of decimal digits; anything else
raises ValueError, modelled as none. -/
def pyToInt? (s : String) : Option Int :=
  match pyStrip s.data with
  | '-' :: ds =>
    if ds.isEmpty then none
    else (parseDigits ds 0).map (fun n => -(n : Int))
  | '+' :: ds =>
    if ds.isEmpty then none
    else (parseDigits ds 0).map (fun n => (n : Int))
  | ds =>
    if ds.isEmpty then none
    else (parseDigits ds 0).map (fun n => (n : Int))

/-- One game row of the scores CSV consumed by process_games: team names
and the raw (string) score cells, whose integer conversion may fail. -/
structure Game where
  awayTeam : String
  homeTeam : String
  awayScore : String
  homeScore : String

/-- The rating table held in current_ratings: a partial map from team name
to rating (a team absent from data/nba.csv is mapped to none). -/
def RatingTable : Type := String → Option ℝ

/-- One iteration of the loop in process_games: parse both score cells,
look up both teams, and on success write both new ratings back into the
table (the home assignment is performed second, as in the source); any
failure skips the game and returns the table unchanged. -/
noncomputable def stepGame (ratings : RatingTable) (g : Game) : RatingTable :=
  match pyToInt? g.awayScore, pyToInt? g.homeScore with
  | some as, some hs =>
    match ratings g.awayTeam, ratings g.homeTeam with
    | some a, some h =>
      let p := calculate_new_elo a h as hs
      fun t =>
        if t = g.homeTeam then some p.2
        else if t = g.awayTeam then some p.1
        else ratings t
    | _, _ => ratings
  | _, _ => ratings

/-- Embedding of the game loop of process_games: fold the day's games over
the rating table in input-file order. -/
noncomputable def process_games (games : List Game) (ratings : RatingTable) :
    RatingTable :=
  match games with
  | [] => ratings
  | g :: gs => process_games gs (stepGame ratings g)

/-- Word-character test of the regex \b boundary (the names compared here
are ASCII after folding, so the ASCII test matches Python re). -/
def isWordChar (c : Char) : Bool :=
  c.isAlphanum || c == '_'

/-- Embedding of `re.match(rf'^{re.escape(key)}(\b|$)', s)`: s starts
with key, and at the position right after key either the string ends or
a word boundary holds. -/
def matchKeyWb (key s : List Char) : Bool :=
  key.isPrefixOf s &&
    (key.length == s.length ||
      (match s.get? key.length with
       | none => true
       | some r =>
         match key.getLast? with
         | some l => isWordChar l != isWordChar r
         | none => isWordChar r))

namespace MCBB

/-- Embedding of normalize_name from src/getMCBBscores.py: NFC
renormalization (identity on the already-composed literals modelled
here), the three literal mojibake/cleanup replacements, removal of the
ranking marker, and a strip. -/
def normalize_name (raw_name : String) : String :=
  if raw_name == "" then raw_name
  else
    let name := pyReplace (pyReplace (pyReplace raw_name "JosÃ©" "José")
      "San Jose" "San José") "Nittany Lions" "Penn State"
    ⟨pyStrip (pyReplace name "No. " "").data⟩

/-- Python dict assignment d[k] = v: overwrite in place if the key is
present, otherwise append at the end. -/
def dictInsert (m : List (String × String)) (k v : String) :
    List (String × String) :=
  if m.any (fun p => p.1 == k) then
    m.map (fun p => if p.1 == k then (k, v) else p)
  else m ++ [(k, v)]

/-- Embedding of the valid_processed dict comprehension of
clean_team_name: folded key to original canonical name.  The universe is
taken as a list (the iteration order of the Python set). -/
def valid_processed (valid_team_names : List String) :
    List (String × String) :=
  valid_team_names.foldl
    (fun m name => dictInsert m (strip_accents (lowerStr name)) name) []

/-- Institutional qualifier words of step (b) of clean_team_name. -/
def qualifierWords : List String :=
  ["state", "college", "university", "tech", "institute",
   "community", "polytechnic", "school", "new", "city",
   "clermont", "extension", "campus", "branch"]

/-- One iteration of the start-of-name matching loop (step 2) of
clean_team_name, updating the running best match. -/
def stage2step (lower : String) (best : Option String)
    (p : String × String) : Option String :=
  if matchKeyWb p.1.data lower.data then
    if (lower.data.contains '(' && lower.data.contains ')') &&
        !(isSubstr p.1 lower) then best
    else if !(pyStrip (lower.data.drop p.1.data.length)).isEmpty &&
        qualifierWords.contains
          ⟨(pyStrip (lower.data.drop p.1.data.length)).takeWhile
            (fun c => !isWS c)⟩ then
      best
    else
      match best with
      | none => some p.2
      | some b =>
        if (strip_accents (lowerStr b)).data.length < p.1.data.length then
          some p.2
        else best
  else best

/-- Step 3 of clean_team_name: when the raw name carries parentheses the
best match must reproduce or occur inside the raw name, else no match. -/
def stage3 (lower : String) (best : Option String) : Option String :=
  match best with
  | none => none
  | some b =>
    if lower.data.contains '(' && lower.data.contains ')' then
      if !(lowerStr b == lower) && !(isSubstr (lowerStr b) lower) then none
      else some b
    else some b

/-- Core of clean_team_name on the folded raw name and processed
universe: exact dict hit first, then the prefix loop, then step 3. -/
def cleanCore (lower : String) (processed : List (String × String)) :
    Option String :=
  match processed.find? (fun p => p.1 == lower) with
  | some p => some p.2
  | none => stage3 lower (processed.foldl (stage2step lower) none)

/-- Embedding of clean_team_name from src/getMCBBscores.py.  Returns none
for the Python None ("no match") result. -/
def clean_team_name (full_name : String) (valid_team_names : List String) :
    Option String :=
  if full_name == "" then none
  else
    cleanCore (strip_accents (lowerStr (normalize_name full_name)))
      (valid_processed valid_team_names)

end MCBB

namespace CFB

/-- Embedding of normalize_name from src/getCFBscores.py (same literal
repairs as the basketball variant). -/
def normalize_name (raw_name : String) : String :=
  if raw_name == "" then raw_name
  else
    let name := pyReplace (pyReplace (pyReplace raw_name "JosÃ©" "José")
      "San Jose" "San José") "Nittany Lions" "Penn State"
    ⟨pyStrip (pyReplace name "No. " "").data⟩

/-- One iteration of the substring matching loop of clean_team_name from
src/getCFBscores.py. -/
def cfbStep (lower : String) (best : Option String) (team : String) :
    Option String :=
  if isSubstr (strip_accents (lowerStr team)) lower then
    match best with
    | none => some team
    | some b => if b.data.length < team.data.length then some team else best
  else best

/-- Embedding of clean_team_name from src/getCFBscores.py: substring match
against the universe, longest original name wins, and on no match the
normalized input itself is returned. -/
def clean_team_name (full_name : String) (valid_team_names : List String) :
    String :=
  if full_name == "" then full_name
  else
    match valid_team_names.foldl
        (cfbStep (strip_accents (lowerStr (normalize_name full_name))))
        none with
    | some b => b
    | none => normalize_name full_name

end CFB

/-! ## Standings record mergers
(src/NBA_Standings_Scraper.py, src/NHL_Standings_Scraper.py,
src/update_ratings.py) -/

namespace NBA

/-- One scraped (team, wins, losses) observation produced by
scrape_nba_standings. -/
structure Scraped where
  team : String
  wins : String
  losses : String

/-- One row of data/nba.csv as read by csv.DictReader. -/
structure Row where
  team : String
  elo : String
  wins : String
  losses : String
  division : String
  notes : String
deriving DecidableEq

/-- Embedding of normalize_team_name from src/NBA_Standings_Scraper.py. -/
def normalize_team_name (team_name : String) : String :=
  team_name.trim

/-- The scraped_map dict comprehension of merge_data: lookup from
normalized team name to the (wins, losses) pair, later items
overwriting earlier ones as in a Python dict. -/
def scraped_map (scraped_data : List Scraped) : String → Option (String × String) :=
  scraped_data.foldl
    (fun m it => fun k =>
      if k = normalize_team_name it.team then some (it.wins, it.losses)
      else m k)
    (fun _ => none)

/-- Per-row body of the merge loop of merge_data. -/
def mergeRow (m : String → Option (String × String)) (row : Row) : Row :=
  match m (normalize_team_name row.team) with
  | some wl => { row with wins := wl.1, losses := wl.2 }
  | none => row

/-- Embedding of merge_data from src/NBA_Standings_Scraper.py: walk the
existing rows in order, overwriting Wins and Losses for rows whose
normalized name has a scraped record. -/
def merge_data (scraped_data : List Scraped) (existing_data : List Row) :
    List Row :=
  existing_data.map (mergeRow (scraped_map scraped_data))

end NBA

namespace NHL

/-- One scraped (team, points) observation. -/
structure Scraped where
  team : String
  points : String

/-- One row of data/nhl.csv as read by csv.DictReader. -/
structure Row where
  team : String
  elo : String
  points : String
  division : String
  notes : String
deriving DecidableEq

/-- Embedding of normalize_team_name from src/NHL_Standings_Scraper.py:
strip, then remove asterisks and plus signs. -/
def normalize_team_name (team_name : String) : String :=
  pyReplace (pyReplace team_name.trim "*" "") "+" ""

/-- The scraped_map dict comprehension of merge_data. -/
def scraped_map (scraped_data : List Scraped) : String → Option String :=
  scraped_data.foldl
    (fun m it => fun k =>
      if k = normalize_team_name it.team then some it.points else m k)
    (fun _ => none)

/-- Per-row body of the merge loop of merge_data. -/
def mergeRow (m : String → Option String) (row : Row) : Row :=
  match m (normalize_team_name row.team) with
  | some p => { row with points := p }
  | none => row

/-- Embedding of merge_data from src/NHL_Standings_Scraper.py. -/
def merge_data (scraped_data : List Scraped) (existing_data : List Row) :
    List Row :=
  existing_data.map (mergeRow (scraped_map scraped_data))

end NHL

namespace UPD

/-- One row of a league CSV handled by update_ratings.py (fixed column
set Team, Elo, Division, Wins, Losses, Notes per the store schema). -/
structure Row where
  team : String
  elo : String
  division : String
  wins : String
  losses : String
  notes : String
deriving DecidableEq

/-- Per-row body of the merge loop of update_csv_file: the CSV team name
is lowercased for the api_records lookup, and on a hit the integer Wins
and Losses from the API overwrite the row's cells (rendered as decimal
strings by the csv writer). -/
def updateRow (api_records : String → Option (Int × Int)) (row : Row) : Row :=
  match api_records (lowerStr row.team) with
  | some wl => { row with wins := toString wl.1, losses := toString wl.2 }
  | none => row

/-- Embedding of the merge section of update_csv_file from
src/update_ratings.py (the file read/write around it is I/O glue). -/
def update_csv_file (api_records : String → Option (Int × Int))
    (current_teams : List Row) : List Row :=
  current_teams.map (updateRow api_records)

end UPD

/-! ## Deduplicated game lists
(src/getCFBscores.py, src/getMCBBscoresn.py) -/

/-- The seen_games loop shared by the fetch scripts: walk the candidate
games in order, keep a game when its key has not been seen, and record
the key. -/
def dedupBy {α β : Type} [DecidableEq β] (key : α → β) :
    List α → List β → List α
  | [], _ => []
  | g :: rest, seen =>
    if key g ∈ seen then dedupBy key rest seen
    else g :: dedupBy key rest (key g :: seen)

/-- A completed-game candidate row after name resolution in
fetch_and_save_college_football_scores. -/
structure ScoreGame where
  away : String
  home : String
  ascore : Int
  hscore : Int
deriving DecidableEq

/-- Lexicographic code-point comparison of character lists, matching how
Python sorted() orders two strings. -/
def charListLe : List Char → List Char → Bool
  | [], _ => true
  | _ :: _, [] => false
  | a :: as, b :: bs =>
    if a.toNat < b.toNat then true
    else if b.toNat < a.toNat then false
    else charListLe as bs

/-- String wrapper for charListLe. -/
def strLe (a b : String) : Bool :=
  charListLe a.data b.data

/-- The key `tuple(sorted([away, home]))` used by seen_games in the
completed-score scripts: the unordered team pair in sorted order. -/
def scoreKey (g : ScoreGame) : String × String :=
  if strLe g.away g.home then (g.away, g.home) else (g.home, g.away)

/-- Embedding of the deduplication performed by
fetch_and_save_college_football_scores over the stream of post-status
games from all API groups. -/
def fetch_and_save_college_football_scores (games : List ScoreGame) :
    List ScoreGame :=
  dedupBy scoreKey games []

/-- An upcoming-game candidate row after name resolution in
fetch_upcoming_wcbb_games. -/
structure SchedGame where
  away : String
  home : String
  date : String
deriving DecidableEq

/-- The key `(away_team, home_team, game_date_pacific)` used by
seen_games in src/getMCBBscoresn.py: the ordered pair plus date. -/
def schedKey (g : SchedGame) : String × String × String :=
  (g.away, g.home, g.date)

/-- The unordered key the spec prescribes for schedules: sorted team
pair plus date. -/
def schedUnorderedKey (g : SchedGame) : (String × String) × String :=
  (if strLe g.away g.home then (g.away, g.home) else (g.home, g.away),
    g.date)

/-- Embedding of the deduplication performed by
fetch_upcoming_wcbb_games over the stream of pre-status games. -/
def fetch_upcoming_wcbb_games (games : List SchedGame) : List SchedGame :=
  dedupBy schedKey games []

/-! ## Helper lemmas about the Elo transform -/

/-- The sign helper vanishes at zero. -/
theorem psign_zero : psign 0 = 0 := by
  simp [psign]

/-- The multiplicative factor is exactly one when the two prior ratings
coincide (the 0 ** 0 case of the Python expression). -/
theorem eloFactor_self (A : ℝ) : eloFactor A A = 1 := by
  simp [eloFactor, psign_zero]

/-- The actual-score modifier vanishes on a tied score. -/
theorem eloAct_tie (s : ℤ) : eloAct s s = 0 := by
  simp [eloAct, psign_zero]

/-- On a tied score the away rating is just scaled by the factor. -/
theorem calculate_new_elo_tie (A H : ℝ) (s : ℤ) :
    calculate_new_elo A H s s =
      (A * eloFactor A H, H - (A * eloFactor A H - A)) := by
  simp [calculate_new_elo, eloAct_tie]

/-- Closed form of the update for equally rated teams when the away team
loses by exactly two points: all powers degenerate to rational values. -/
theorem calculate_new_elo_equal_loss2 (A : ℝ) :
    calculate_new_elo A A 0 2 = (A - 20 / 3, A + 20 / 3) := by
  have hex : eloEx A A = 1 / 2 := by
    simp [eloEx]
    norm_num
  have hact : eloAct 0 2 = -1 := by
    have h1 : ((0 : ℤ) : ℝ) - ((2 : ℤ) : ℝ) + 1 = -1 := by norm_num
    have h2 : ((0 : ℤ) : ℝ) - ((2 : ℤ) : ℝ) = -2 := by norm_num
    rw [eloAct, h1, h2]
    rw [show |(-1 : ℝ)| = 1 by norm_num, Real.one_rpow]
    simp [psign]
  rw [calculate_new_elo, hex, hact, eloFactor_self]
  rw [Prod.mk.injEq]
  refine ⟨by norm_num; ring, by norm_num⟩

/-- C4: for all prior ratings A and H and all integer scores sa, sh, the
Elo update of calculate_new_elo is zero-sum between the two teams of one
game: the new ratings satisfy H' - H = -(A' - A). -/
theorem calculate_new_elo_zero_sum (A H : ℝ) (sa sh : ℤ) :
    (calculate_new_elo A H sa sh).2 - H =
      -((calculate_new_elo A H sa sh).1 - A) := by
  simp [calculate_new_elo]

/-- C5: when the two prior ratings are equal the multiplicative factor
abs(HElo - AElo) ** (sign(HElo - AElo) / 1000) inside calculate_new_elo
equals exactly 1 (the 0 ** 0 case), so the new away rating is exactly
A + 4 * act / (ex + 0.1) with no multiplicative distortion. -/
theorem calculate_new_elo_factor_one_on_equal (A H : ℝ) (sa sh : ℤ)
    (h : H = A) :
    eloFactor A H = 1 ∧
      (calculate_new_elo A H sa sh).1 =
        A + 4 * (eloAct sa sh / (eloEx A H + 0.1)) := by
  subst h
  refine ⟨eloFactor_self _, ?_⟩
  simp [calculate_new_elo, eloFactor_self]

/-- Witness for C5 at concrete ratings 1500 = 1500 and score 3 : 1. -/
theorem calculate_new_elo_factor_one_on_equal_witness :
    eloFactor 1500 1500 = 1 ∧
      (calculate_new_elo 1500 1500 3 1).1 =
        1500 + 4 * (eloAct 3 1 / (eloEx 1500 1500 + 0.1)) :=
  calculate_new_elo_factor_one_on_equal 1500 1500 3 1 rfl

/-! ## Name resolver: concrete evaluations -/

/-- C1: evaluation of the basketball clean_team_name at the spec's
prefix-tie-break example.  Contrary to the claim (and to the function's
own comments), the longer canonical prefix "Miami (OH)" never survives
the word-boundary regex — a key ending in a parenthesis is never
followed by a word boundary — and the final parenthetical guard lets the
shorter "Miami" through because "miami" is a substring of the raw name:
the resolver returns "Miami", not "Miami (OH)". -/
theorem clean_team_name_miami_eval :
    MCBB.clean_team_name "Miami (OH) RedHawks" ["Miami", "Miami (OH)"] =
      some "Miami" := by
  decide

/-- C3 counterexample: the football clean_team_name (cited by the claim)
has no institutional-qualifier rejection at all, so against the universe
containing only "Washington" the raw name "Washington State Cougars"
resolves to "Washington" instead of the no-match sentinel. -/
theorem cfb_clean_team_name_washington_eval :
    CFB.clean_team_name "Washington State Cougars" ["Washington"] =
      "Washington" := by
  decide

/-- C3 amended: the basketball clean_team_name does reject the prefix
match "Washington" because the remainder starts with the qualifier
"State", returning the no-match sentinel; the football clean_team_name,
which lacks the qualifier check, returns "Washington" for the same
input. -/
theorem clean_team_name_qualifier_rejection :
    MCBB.clean_team_name "Washington State Cougars" ["Washington"] = none ∧
      CFB.clean_team_name "Washington State Cougars" ["Washington"] =
        "Washington" := by
  decide

/-- C2 counterexample: the football clean_team_name returns its
normalized input when nothing matches, a string outside the universe and
distinct from any no-match sentinel. -/
theorem cfb_clean_team_name_outside_universe :
    CFB.clean_team_name "Ohio Bulldogs" ["Georgia"] = "Ohio Bulldogs" ∧
      "Ohio Bulldogs" ∉ (["Georgia"] : List String) := by
  decide

/-! ## Name resolver: universe membership -/

/-- Every value held in a dict after an assignment is either an old value
or the newly assigned one. -/
theorem dictInsert_snd {m : List (String × String)} {k v : String}
    {p : String × String} (hp : p ∈ MCBB.dictInsert m k v) :
    (∃ q ∈ m, p.2 = q.2) ∨ p.2 = v := by
  unfold MCBB.dictInsert at hp
  split at hp
  · rcases List.mem_map.mp hp with ⟨q, hq, heq⟩
    by_cases hk : (q.1 == k) = true
    · right
      rw [if_pos hk] at heq
      rw [← heq]
    · left
      rw [if_neg hk] at heq
      exact ⟨q, hq, by rw [← heq]⟩
  · rcases List.mem_append.mp hp with h | h
    · exact Or.inl ⟨p, h, rfl⟩
    · right
      simp only [List.mem_singleton] at h
      rw [h]

/-- Every value of the valid_processed dict is a member of the universe
it was built from. -/
theorem valid_processed_aux (l : List String) :
    ∀ (acc : List (String × String)) (p : String × String),
      p ∈ l.foldl
        (fun m name => MCBB.dictInsert m (strip_accents (lowerStr name)) name)
        acc →
      (∃ q ∈ acc, p.2 = q.2) ∨ p.2 ∈ l := by
  induction l with
  | nil =>
    intro acc p hp
    exact Or.inl ⟨p, hp, rfl⟩
  | cons a as ih =>
    intro acc p hp
    simp only [List.foldl_cons] at hp
    rcases ih _ p hp with ⟨q, hq, he⟩ | h
    · rcases dictInsert_snd hq with ⟨r, hr, he2⟩ | he2
      · exact Or.inl ⟨r, hr, he.trans he2⟩
      · right
        rw [he, he2]
        exact List.mem_cons_self a as
    · exact Or.inr (List.mem_cons_of_mem a h)

/-- Membership form of valid_processed_aux. -/
theorem valid_processed_mem {U : List String} {p : String × String}
    (hp : p ∈ MCBB.valid_processed U) : p.2 ∈ U := by
  rcases valid_processed_aux U [] p hp with ⟨q, hq, _⟩ | h
  · exact absurd hq (List.not_mem_nil q)
  · exact h

/-- A best-match fold whose step either keeps the accumulator or selects
the value of the current element only ever produces the initial
accumulator or a selected value. -/
theorem foldl_best_cases {α : Type} (f : Option String → α → Option String)
    (g : α → String) (hf : ∀ b a, f b a = b ∨ f b a = some (g a)) :
    ∀ (l : List α) (acc : Option String),
      l.foldl f acc = acc ∨ ∃ a ∈ l, l.foldl f acc = some (g a) := by
  intro l
  induction l with
  | nil => intro acc; exact Or.inl rfl
  | cons a as ih =>
    intro acc
    simp only [List.foldl_cons]
    rcases ih (f acc a) with h | ⟨x, hx, he⟩
    · rcases hf acc a with h2 | h2
      · rw [h, h2]
        exact Or.inl rfl
      · rw [h, h2]
        exact Or.inr ⟨a, List.mem_cons_self a as, rfl⟩
    · exact Or.inr ⟨x, List.mem_cons_of_mem a hx, he⟩

/-- The step of the basketball prefix-matching loop keeps the running
best or selects the current canonical name. -/
theorem stage2step_cases (lower : String) (best : Option String)
    (p : String × String) :
    MCBB.stage2step lower best p = best ∨
      MCBB.stage2step lower best p = some p.2 := by
  cases best with
  | none =>
    unfold MCBB.stage2step
    repeat' split
    all_goals first | exact Or.inl rfl | exact Or.inr rfl
  | some b =>
    unfold MCBB.stage2step
    repeat' split
    all_goals first | exact Or.inl rfl | exact Or.inr rfl

/-- The step of the football substring-matching loop keeps the running
best or selects the current canonical name. -/
theorem cfbStep_cases (lower : String) (best : Option String)
    (team : String) :
    CFB.cfbStep lower best team = best ∨
      CFB.cfbStep lower best team = some team := by
  cases best with
  | none =>
    unfold CFB.cfbStep
    repeat' split
    all_goals first | exact Or.inl rfl | exact Or.inr rfl
  | some b =>
    unfold CFB.cfbStep
    repeat' split
    all_goals first | exact Or.inl rfl | exact Or.inr rfl

/-- Step 3 on an empty best match is the no-match sentinel. -/
theorem stage3_none (lower : String) : MCBB.stage3 lower none = none := rfl

/-- Step 3 either rejects the best match or returns it unchanged. -/
theorem stage3_cases (lower b : String) :
    MCBB.stage3 lower (some b) = none ∨
      MCBB.stage3 lower (some b) = some b := by
  simp only [MCBB.stage3]
  repeat' split
  all_goals first | exact Or.inl rfl | exact Or.inr rfl

/-- The basketball resolver core returns the sentinel or a member of the
universe the processed dict was built from. -/
theorem cleanCore_cases (lower : String) (U : List String) :
    MCBB.cleanCore lower (MCBB.valid_processed U) = none ∨
      ∃ t ∈ U, MCBB.cleanCore lower (MCBB.valid_processed U) = some t := by
  unfold MCBB.cleanCore
  rcases hfind : (MCBB.valid_processed U).find? (fun p => p.1 == lower)
    with _ | p
  · rw [hfind]
    rcases foldl_best_cases (MCBB.stage2step lower) Prod.snd
      (stage2step_cases lower) (MCBB.valid_processed U) none with h | ⟨p, hp, he⟩
    · rw [h, stage3_none]
      exact Or.inl rfl
    · rw [he]
      rcases stage3_cases lower p.2 with h3 | h3
      · rw [h3]
        exact Or.inl rfl
      · rw [h3]
        exact Or.inr ⟨p.2, valid_processed_mem hp, rfl⟩
  · rw [hfind]
    exact Or.inr ⟨p.2, valid_processed_mem (List.mem_of_find?_eq_some hfind),
      rfl⟩

/-- C2 amended: the basketball clean_team_name always returns the
no-match sentinel or a member of the universe; the football
clean_team_name returns a member of the universe or — when nothing
matched — the normalized raw input itself (the behaviour the original
claim rules out). -/
theorem clean_team_name_universe_closed :
    (∀ (n : String) (U : List String),
        MCBB.clean_team_name n U = none ∨
          ∃ t ∈ U, MCBB.clean_team_name n U = some t) ∧
      ∀ (n : String) (U : List String),
        CFB.clean_team_name n U ∈ U ∨
          CFB.clean_team_name n U = CFB.normalize_name n := by
  constructor
  · intro n U
    unfold MCBB.clean_team_name
    split
    · exact Or.inl rfl
    · exact cleanCore_cases _ U
  · intro n U
    unfold CFB.clean_team_name
    split
    · right
      rename_i hn
      have hn' : n = "" := by simpa using hn
      subst hn'
      rfl
    · rcases foldl_best_cases
        (CFB.cfbStep (strip_accents (lowerStr (CFB.normalize_name n)))) id
        (cfbStep_cases (strip_accents (lowerStr (CFB.normalize_name n))))
        U none with h | ⟨t, ht, he⟩
      · rw [h]
        exact Or.inr rfl
      · rw [he]
        exact Or.inl ht

/-! ## Record merger properties -/

/-- Applying the NBA per-row merge twice equals applying it once. -/
theorem nba_mergeRow_idem (m : String → Option (String × String))
    (row : NBA.Row) :
    NBA.mergeRow m (NBA.mergeRow m row) = NBA.mergeRow m row := by
  cases h : m (NBA.normalize_team_name row.team) with
  | none => simp [NBA.mergeRow, h]
  | some wl => simp [NBA.mergeRow, h]

/-- Applying the NHL per-row merge twice equals applying it once. -/
theorem nhl_mergeRow_idem (m : String → Option String) (row : NHL.Row) :
    NHL.mergeRow m (NHL.mergeRow m row) = NHL.mergeRow m row := by
  cases h : m (NHL.normalize_team_name row.team) with
  | none => simp [NHL.mergeRow, h]
  | some p => simp [NHL.mergeRow, h]

/-- C6: merging the same scraped update mapping twice into a standings
table yields exactly the same table as merging it once, for both the NBA
merge_data (wins/losses) and the NHL merge_data (points). -/
theorem merge_data_idempotent :
    (∀ (s : List NBA.Scraped) (T : List NBA.Row),
        NBA.merge_data s (NBA.merge_data s T) = NBA.merge_data s T) ∧
      ∀ (s : List NHL.Scraped) (T : List NHL.Row),
        NHL.merge_data s (NHL.merge_data s T) = NHL.merge_data s T := by
  constructor
  · intro s T
    unfold NBA.merge_data
    rw [List.map_map]
    exact List.map_congr_left fun row _ => nba_mergeRow_idem _ row
  · intro s T
    unfold NHL.merge_data
    rw [List.map_map]
    exact List.map_congr_left fun row _ => nhl_mergeRow_idem _ row

/-- C7: the merged table is the per-row image of the old table (same
rows, same order, none created or deleted); a row whose key misses the
update mapping is returned unchanged in every field; a row whose key
hits it changes only the targeted fields (points for the NHL merger,
wins/losses for update_csv_file) while team, rating, division and notes
are preserved unchanged. -/
theorem merge_frame_preservation :
    (∀ (s : List NHL.Scraped) (T : List NHL.Row),
        NHL.merge_data s T = T.map (NHL.mergeRow (NHL.scraped_map s)) ∧
          (NHL.merge_data s T).length = T.length) ∧
      (∀ (m : String → Option String) (row : NHL.Row),
        m (NHL.normalize_team_name row.team) = none →
          NHL.mergeRow m row = row) ∧
      (∀ (m : String → Option String) (row : NHL.Row) (p : String),
        m (NHL.normalize_team_name row.team) = some p →
          NHL.mergeRow m row = { row with points := p }) ∧
      (∀ (m : String → Option String) (row : NHL.Row),
        (NHL.mergeRow m row).team = row.team ∧
          (NHL.mergeRow m row).elo = row.elo ∧
          (NHL.mergeRow m row).division = row.division ∧
          (NHL.mergeRow m row).notes = row.notes) ∧
      (∀ (api : String → Option (Int × Int)) (T : List UPD.Row),
        UPD.update_csv_file api T = T.map (UPD.updateRow api) ∧
          (UPD.update_csv_file api T).length = T.length) ∧
      (∀ (api : String → Option (Int × Int)) (row : UPD.Row),
        api (lowerStr row.team) = none → UPD.updateRow api row = row) ∧
      (∀ (api : String → Option (Int × Int)) (row : UPD.Row)
          (wl : Int × Int),
        api (lowerStr row.team) = some wl →
          UPD.updateRow api row =
            { row with wins := toString wl.1, losses := toString wl.2 }) ∧
      ∀ (api : String → Option (Int × Int)) (row : UPD.Row),
        (UPD.updateRow api row).team = row.team ∧
          (UPD.updateRow api row).elo = row.elo ∧
          (UPD.updateRow api row).division = row.division ∧
          (UPD.updateRow api row).notes = row.notes := by
  refine ⟨fun s T => ⟨rfl, by simp [NHL.merge_data]⟩, ?_, ?_, ?_, ?_, ?_, ?_, ?_⟩
  · intro m row h
    simp [NHL.mergeRow, h]
  · intro m row p h
    simp [NHL.mergeRow, h]
  · intro m row
    cases h : m (NHL.normalize_team_name row.team) with
    | none => simp [NHL.mergeRow, h]
    | some p => simp [NHL.mergeRow, h]
  · exact fun api T => ⟨rfl, by simp [UPD.update_csv_file]⟩
  · intro api row h
    simp [UPD.updateRow, h]
  · intro api row wl h
    simp [UPD.updateRow, h]
  · intro api row
    cases h : api (lowerStr row.team) with
    | none => simp [UPD.updateRow, h]
    | some wl => simp [UPD.updateRow, h]

/-- Witness for C7 at a concrete table: the Bruins row is untouched by
an empty update mapping, and a Lakers row hit by the mapping keeps its
team, rating, division and notes while wins and losses change. -/
theorem merge_frame_preservation_witness :
    NHL.mergeRow (NHL.scraped_map [])
        ⟨"Boston Bruins", "1510.5", "88", "Atlantic", "x"⟩ =
      ⟨"Boston Bruins", "1510.5", "88", "Atlantic", "x"⟩ ∧
      UPD.updateRow
          (fun k => if k = "lakers" then some (10, 5) else none)
          ⟨"Lakers", "1499.0", "West", "9", "9", "n"⟩ =
        ⟨"Lakers", "1499.0", "West", "10", "5", "n"⟩ :=
  ⟨merge_frame_preservation.2.1 _ _ rfl,
    merge_frame_preservation.2.2.2.2.2.2.1
      (fun k => if k = "lakers" then some (10, 5) else none)
      ⟨"Lakers", "1499.0", "West", "9", "9", "n"⟩ (10, 5) (by decide)⟩

/-! ## Rating transform: skipping and sequential folding -/

/-- C8: a game row whose score cells do not parse as integers, or which
names a team absent from the prior rating table, is skipped: the step
leaves every team's rating exactly as it was, and processing simply
continues with the remaining games. -/
theorem process_games_skips_bad_rows (ratings : RatingTable) (g : Game)
    (gs : List Game)
    (h : pyToInt? g.awayScore = none ∨ pyToInt? g.homeScore = none ∨
      ratings g.awayTeam = none ∨ ratings g.homeTeam = none) :
    stepGame ratings g = ratings ∧
      process_games (g :: gs) ratings = process_games gs ratings := by
  have hstep : stepGame ratings g = ratings := by
    rcases h with h | h | h | h
    · simp [stepGame, h]
    · cases hA : pyToInt? g.awayScore with
      | none => simp [stepGame, hA]
      | some a => simp [stepGame, hA, h]
    · cases hA : pyToInt? g.awayScore with
      | none => simp [stepGame, hA]
      | some a =>
        cases hH : pyToInt? g.homeScore with
        | none => simp [stepGame, hA, hH]
        | some b => simp [stepGame, hA, hH, h]
    · cases hA : pyToInt? g.awayScore with
      | none => simp [stepGame, hA]
      | some a =>
        cases hH : pyToInt? g.homeScore with
        | none => simp [stepGame, hA, hH]
        | some b =>
          cases hT : ratings g.awayTeam with
          | none => simp [stepGame, hA, hH, hT]
          | some x => simp [stepGame, hA, hH, hT, h]
  refine ⟨hstep, ?_⟩
  show process_games gs (stepGame ratings g) = process_games gs ratings
  rw [hstep]

/-- Witness for C8: a game naming the unknown away team "Heat" against a
one-team table is skipped and the table is returned unchanged. -/
theorem process_games_skips_bad_rows_witness :
    (fun t => if t = "Lakers" then some (1500 : ℝ) else none) "Heat"
        = none ∧
      stepGame (fun t => if t = "Lakers" then some (1500 : ℝ) else none)
          ⟨"Heat", "Lakers", "100", "99"⟩ =
        (fun t => if t = "Lakers" then some (1500 : ℝ) else none) :=
  ⟨rfl, (process_games_skips_bad_rows
      (fun t => if t = "Lakers" then some (1500 : ℝ) else none)
      ⟨"Heat", "Lakers", "100", "99"⟩ []
      (Or.inr (Or.inr (Or.inl rfl)))).1⟩

/-- C10: the rating transform folds the games sequentially — processing
a file starting with game g continues with the table already updated by
g, so later games read post-update ratings — and the final table really
depends on the order of the game rows, witnessed by two games sharing
team "X" whose two orderings leave team "W" with different ratings. -/
theorem process_games_sequential_fold :
    (∀ (r : RatingTable) (g : Game) (gs : List Game),
        process_games (g :: gs) r = process_games gs (stepGame r g)) ∧
      ∃ (r : RatingTable) (g1 g2 : Game),
        process_games [g1, g2] r ≠ process_games [g2, g1] r := by
  constructor
  · intro r g gs
    rfl
  · refine ⟨fun t => if t = "X" then some (0 : ℝ)
      else if t = "Y" then some 0
      else if t = "W" then some (-(20 / 3)) else none,
      ⟨"X", "Y", "0", "2"⟩, ⟨"W", "X", "5", "5"⟩, ?_⟩
    intro hEq
    have hW := congrFun hEq "W"
    have eL : process_games [⟨"X", "Y", "0", "2"⟩, ⟨"W", "X", "5", "5"⟩]
        (fun t => if t = "X" then some (0 : ℝ)
          else if t = "Y" then some 0
          else if t = "W" then some (-(20 / 3)) else none) "W" =
        some ((calculate_new_elo (-(20 / 3) : ℝ)
          ((calculate_new_elo 0 0 0 2).1) 5 5).1) := rfl
    have eR : process_games [⟨"W", "X", "5", "5"⟩, ⟨"X", "Y", "0", "2"⟩]
        (fun t => if t = "X" then some (0 : ℝ)
          else if t = "Y" then some 0
          else if t = "W" then some (-(20 / 3)) else none) "W" =
        some ((calculate_new_elo (-(20 / 3) : ℝ) 0 5 5).1) := rfl
    rw [eL, eR] at hW
    have hval : (calculate_new_elo (-(20 / 3) : ℝ)
        ((calculate_new_elo 0 0 0 2).1) 5 5).1 =
        (calculate_new_elo (-(20 / 3) : ℝ) 0 5 5).1 :=
      Option.some_injective ℝ hW
    rw [calculate_new_elo_equal_loss2] at hval
    have h03 : ((0 : ℝ) - 20 / 3, (0 : ℝ) + 20 / 3).1 = -(20 / 3) := by
      norm_num
    rw [h03] at hval
    rw [calculate_new_elo_tie, calculate_new_elo_tie] at hval
    simp only [eloFactor_self, mul_one] at hval
    have hfac : eloFactor (-(20 / 3) : ℝ) 0 = (20 / 3 : ℝ) ^ ((1 : ℝ) / 1000) := by
      unfold eloFactor psign
      rw [show (0 : ℝ) - -(20 / 3) = 20 / 3 by norm_num]
      rw [if_pos (by norm_num : (0 : ℝ) < 20 / 3)]
      rw [abs_of_pos (by norm_num : (0 : ℝ) < 20 / 3)]
    rw [hfac] at hval
    have hgt : (1 : ℝ) < (20 / 3 : ℝ) ^ ((1 : ℝ) / 1000) :=
      Real.one_lt_rpow (by norm_num) (by norm_num)
    have hlt : -(20 / 3 : ℝ) * ((20 / 3 : ℝ) ^ ((1 : ℝ) / 1000)) <
        -(20 / 3 : ℝ) * 1 :=
      mul_lt_mul_of_neg_left hgt (by norm_num)
    rw [mul_one] at hlt
    linarith [hval, hlt]

/-! ## Deduplication of derived game lists -/

/-- The seen-set loop emits pairwise distinct keys, none of which were
already seen. -/
theorem dedupBy_keys_aux {α β : Type} [DecidableEq β] (key : α → β) :
    ∀ (games : List α) (seen : List β),
      ((dedupBy key games seen).map key).Nodup ∧
        ∀ k ∈ (dedupBy key games seen).map key, k ∉ seen := by
  intro games
  induction games with
  | nil =>
    intro seen
    refine ⟨List.nodup_nil, ?_⟩
    intro k hk
    simp [dedupBy] at hk
  | cons g gs ih =>
    intro seen
    by_cases h : key g ∈ seen
    · have e : dedupBy key (g :: gs) seen = dedupBy key gs seen := by
        simp [dedupBy, h]
      rw [e]
      exact ih seen
    · have e : dedupBy key (g :: gs) seen =
          g :: dedupBy key gs (key g :: seen) := by
        simp [dedupBy, h]
      rw [e]
      obtain ⟨hnd, hnot⟩ := ih (key g :: seen)
      refine ⟨?_, ?_⟩
      · simp only [List.map_cons, List.nodup_cons]
        exact ⟨fun hmem => (hnot _ hmem) (List.mem_cons_self _ _), hnd⟩
      · intro k hk
        simp only [List.map_cons, List.mem_cons] at hk
        rcases hk with hk | hk
        · rw [hk]
          exact h
        · exact fun hkseen => hnot k hk (List.mem_cons_of_mem _ hkseen)

/-- C9 amended: the completed-game list is deduplicated by the unordered
team pair — no two emitted rows share a sorted pair key — while the
upcoming-schedule list is deduplicated by the ordered (away, home, date)
triple, not by the unordered pair the claim states. -/
theorem game_lists_deduplicated :
    (∀ games : List ScoreGame,
        ((fetch_and_save_college_football_scores games).map scoreKey).Nodup) ∧
      ∀ games : List SchedGame,
        ((fetch_upcoming_wcbb_games games).map schedKey).Nodup := by
  constructor
  · intro games
    exact (dedupBy_keys_aux scoreKey games []).1
  · intro games
    exact (dedupBy_keys_aux schedKey games []).1

/-- C9 counterexample: the same scheduled game listed once as (A, B) and
once as (B, A) on the same date — one unordered pair plus date — yields
two rows in the upcoming-game list, because getMCBBscoresn.py keys
seen_games by the ordered pair. -/
theorem sched_dedup_not_unordered :
    fetch_upcoming_wcbb_games
        [⟨"A", "B", "2026-01-01"⟩, ⟨"B", "A", "2026-01-01"⟩] =
        [⟨"A", "B", "2026-01-01"⟩, ⟨"B", "A", "2026-01-01"⟩] ∧
      ¬ ((fetch_upcoming_wcbb_games
          [⟨"A", "B", "2026-01-01"⟩, ⟨"B", "A", "2026-01-01"⟩]).map
            schedUnorderedKey).Nodup := by
  decide
